import Mathlib

/-!
Shallow embedding of the grocery inventory tracker (src/grocery_app.py).

Prices are modelled as rationals, timestamps and calendar dates as integers
(day numbers), so that comparisons and sums are exact. Mutation is modelled
by explicit state passing: each Python method that mutates its object becomes
a Lean function returning the updated value.
-/

set_option autoImplicit false

namespace GroceryApp

/-- Embedding of GroceryItem (the BaseItem fields name and category are
flattened in, their one-level inheritance carries no behaviour). The
constructor sets bought to false and records the construction time. -/
structure GroceryItem where
  name : String
  category : String
  price : ℚ
  bought : Bool
  added_on : ℤ
  expiry_date : Option ℤ
  deriving DecidableEq

/-- Embedding of the GroceryItem constructor: bought starts false and
added_on records the construction time (datetime.now()). -/
def GroceryItem.make (name category : String) (price : ℚ)
    (expiry_date : Option ℤ) (now : ℤ) : GroceryItem :=
  ⟨name, category, price, false, now, expiry_date⟩

/-- Embedding of GroceryItem.mark_as_bought: sets the bought flag. -/
def GroceryItem.mark_as_bought (it : GroceryItem) : GroceryItem :=
  { it with bought := true }

/-- Embedding of GroceryItem.is_bought. -/
def GroceryItem.is_bought (it : GroceryItem) : Bool :=
  it.bought

/-- Embedding of GroceryItem.is_expiring_soon: false when there is no
expiry date, otherwise tests 0 <= (expiry - today).days <= days. The
parameter today stands for datetime.now().date(). -/
def GroceryItem.is_expiring_soon (it : GroceryItem) (today days : ℤ) : Bool :=
  match it.expiry_date with
  | none => false
  | some e => decide (0 ≤ e - today ∧ e - today ≤ days)

/-- Embedding of GroceryItem.get_price. -/
def GroceryItem.get_price (it : GroceryItem) : ℚ :=
  it.price

/-- Embedding of GroceryList: an ordered list of items. -/
structure GroceryList where
  items : List GroceryItem
  deriving DecidableEq

/-- Embedding of str.lower(): lowercase every character. Defined over the
character list so that it evaluates by kernel reduction. -/
def str_lower (s : String) : String :=
  ⟨s.data.map Char.toLower⟩

/-- The guard of the scan in GroceryList.mark_as_bought:
item.name.lower() == name.lower() and not item.is_bought(). -/
def is_pending_match (name : String) (it : GroceryItem) : Bool :=
  str_lower it.name == str_lower name && !it.is_bought

/-- The loop body of GroceryList.mark_as_bought: scan in order, mark and
return the first pending case-insensitive match, otherwise return none
and leave the list as it was. -/
def mark_first (name : String) : List GroceryItem → Option GroceryItem × List GroceryItem
  | [] => (none, [])
  | it :: rest =>
    if is_pending_match name it then
      (some it.mark_as_bought, it.mark_as_bought :: rest)
    else
      let r := mark_first name rest
      (r.1, it :: r.2)

/-- Embedding of GroceryList.add_item: always appends a fresh item. -/
def GroceryList.add_item (gl : GroceryList) (name category : String)
    (price : ℚ) (expiry_date : Option ℤ) (now : ℤ) : GroceryList :=
  ⟨gl.items ++ [GroceryItem.make name category price expiry_date now]⟩

/-- Embedding of GroceryList.mark_as_bought: returns the item found (if
any) together with the updated list. -/
def GroceryList.mark_as_bought (gl : GroceryList) (name : String) :
    Option GroceryItem × GroceryList :=
  ((mark_first name gl.items).1, ⟨(mark_first name gl.items).2⟩)

/-- Embedding of GroceryList.get_items: all items for None, otherwise the
items whose bought status equals the flag. -/
def GroceryList.get_items (gl : GroceryList) (bought : Option Bool) : List GroceryItem :=
  match bought with
  | none => gl.items
  | some b => gl.items.filter (fun it => it.is_bought == b)

/-- Embedding of GroceryList.get_expiring_items. -/
def GroceryList.get_expiring_items (gl : GroceryList) (today days : ℤ)
    (include_bought : Bool) : List GroceryItem :=
  gl.items.filter (fun it =>
    it.is_expiring_soon today days && (include_bought || !it.is_bought))

/-- Embedding of PurchaseHistory: the defaultdict(list) keyed by date
string becomes an association list of buckets, total_spent a rational. -/
structure PurchaseHistory where
  history : List (String × List GroceryItem)
  total_spent : ℚ
  deriving DecidableEq

/-- Embedding of the PurchaseHistory constructor. -/
def PurchaseHistory.empty : PurchaseHistory :=
  ⟨[], 0⟩

/-- Appending to a defaultdict(list) bucket: extend the existing bucket
for the key, or create a fresh one. -/
def add_to_bucket (key : String) (it : GroceryItem) :
    List (String × List GroceryItem) → List (String × List GroceryItem)
  | [] => [(key, [it])]
  | (k, v) :: rest =>
    if k == key then (k, v ++ [it]) :: rest
    else (k, v) :: add_to_bucket key it rest

/-- Embedding of PurchaseHistory.record_purchase: file the item under the
given date string and add its price to the running total. -/
def PurchaseHistory.record_purchase (ph : PurchaseHistory) (date_str : String)
    (it : GroceryItem) : PurchaseHistory :=
  ⟨add_to_bucket date_str it ph.history, ph.total_spent + it.get_price⟩

/-- Embedding of PurchaseHistory.get_total_spent. -/
def PurchaseHistory.get_total_spent (ph : PurchaseHistory) : ℚ :=
  ph.total_spent

/-- A sequence of record_purchase calls, each with its date string. -/
def record_all (ph : PurchaseHistory) (calls : List (String × GroceryItem)) :
    PurchaseHistory :=
  calls.foldl (fun h c => h.record_purchase c.1 c.2) ph

/-- Combined session state, as held in st.session_state. -/
structure AppState where
  grocery_list : GroceryList
  purchase_history : PurchaseHistory
  deriving DecidableEq

/-- The operations the app performs on the session state. The
mark_as_bought operation bundles the record_purchase that the app issues
on a successful mark (lines 149 to 151 of the source). -/
inductive Op where
  | add_item (name category : String) (price : ℚ) (expiry_date : Option ℤ) (now : ℤ)
  | mark_as_bought (name date_str : String)
  | get_items (bought : Option Bool)
  | get_expiring_items (today days : ℤ) (include_bought : Bool)

/-- One app interaction: add_item appends to the inventory; a successful
mark_as_bought forwards the marked item to record_purchase; the two query
operations read state without changing it. -/
def step (s : AppState) (op : Op) : AppState :=
  match op with
  | .add_item n c p e now => ⟨s.grocery_list.add_item n c p e now, s.purchase_history⟩
  | .mark_as_bought name date_str =>
    match s.grocery_list.mark_as_bought name with
    | (some it, gl2) => ⟨gl2, s.purchase_history.record_purchase date_str it⟩
    | (none, gl2) => ⟨gl2, s.purchase_history⟩
  | .get_items _ => s
  | .get_expiring_items _ _ _ => s

/-- Arguments of one add_item call. -/
structure AddCall where
  name : String
  category : String
  price : ℚ
  expiry_date : Option ℤ
  now : ℤ

/-- The item an add_item call constructs. -/
def AddCall.item (c : AddCall) : GroceryItem :=
  GroceryItem.make c.name c.category c.price c.expiry_date c.now

/-- A sequence of add_item calls applied in order. -/
def run_adds (gl : GroceryList) (calls : List AddCall) : GroceryList :=
  calls.foldl (fun g c => g.add_item c.name c.category c.price c.expiry_date c.now) gl

/-! Helper lemmas. -/

theorem record_all_total (calls : List (String × GroceryItem)) :
    ∀ ph : PurchaseHistory,
      (record_all ph calls).total_spent =
        ph.total_spent + (calls.map (fun c => c.2.get_price)).sum := by
  induction calls with
  | nil => intro ph; simp [record_all]
  | cons c rest ih =>
    intro ph
    have hstep : record_all ph (c :: rest) = record_all (ph.record_purchase c.1 c.2) rest := rfl
    rw [hstep, ih]
    simp [PurchaseHistory.record_purchase]
    ring

theorem mark_first_not_found (name : String) :
    ∀ l : List GroceryItem, (∀ x ∈ l, is_pending_match name x = false) →
      mark_first name l = (none, l) := by
  intro l
  induction l with
  | nil => intro _; rfl
  | cons a t ih =>
    intro h
    have ha := h a (List.mem_cons_self a t)
    have ht := ih (fun x hx => h x (List.mem_cons_of_mem a hx))
    simp [mark_first, ha, ht]

theorem mark_first_found (name : String) (it : GroceryItem) (post : List GroceryItem) :
    ∀ pre : List GroceryItem, (∀ x ∈ pre, is_pending_match name x = false) →
      is_pending_match name it = true →
      mark_first name (pre ++ it :: post) =
        (some it.mark_as_bought, pre ++ it.mark_as_bought :: post) := by
  intro pre
  induction pre with
  | nil => intro _ hit; simp [mark_first, hit]
  | cons a t ih =>
    intro h hit
    have ha := h a (List.mem_cons_self a t)
    have ht := ih (fun x hx => h x (List.mem_cons_of_mem a hx)) hit
    simp [mark_first, ha, ht]

theorem exists_first_match (p : GroceryItem → Bool) :
    ∀ l : List GroceryItem, (∃ x ∈ l, p x = true) →
      ∃ pre it post, l = pre ++ it :: post ∧
        (∀ x ∈ pre, p x = false) ∧ p it = true := by
  intro l
  induction l with
  | nil => rintro ⟨x, hx, _⟩; cases hx
  | cons a t ih =>
    rintro ⟨x, hx, hpx⟩
    by_cases hpa : p a = true
    · exact ⟨[], a, t, rfl, by simp, hpa⟩
    · have hxt : x ∈ t := by
        rcases List.mem_cons.mp hx with rfl | hm
        · exact absurd hpx hpa
        · exact hm
      rcases ih ⟨x, hxt, hpx⟩ with ⟨pre, it, post, heq, hpre, hit⟩
      refine ⟨a :: pre, it, post, by simp [heq], ?_, hit⟩
      intro y hy
      rcases List.mem_cons.mp hy with rfl | hm
      · exact Bool.eq_false_iff.mpr hpa
      · exact hpre y hm

/-- Claim C1: after any sequence of record_purchase calls starting from a
fresh history, get_total_spent equals the sum of the prices of all items
passed in, accumulated in call order. -/
theorem c1_total_spent_is_sum (calls : List (String × GroceryItem)) :
    (record_all PurchaseHistory.empty calls).get_total_spent =
      (calls.map (fun c => c.2.get_price)).sum := by
  rw [PurchaseHistory.get_total_spent, record_all_total]
  simp [PurchaseHistory.empty]

/-- Claim C2: when the inventory holds at least two pending items whose
names match the argument case-insensitively, mark_as_bought marks exactly
the first such item in insertion order, returns it, and leaves every
other item untouched. -/
theorem c2_marks_first_of_two_pending (gl : GroceryList) (name : String)
    (h : 2 ≤ gl.items.countP (is_pending_match name)) :
    ∃ pre it post,
      gl.items = pre ++ it :: post ∧
      (∀ x ∈ pre, is_pending_match name x = false) ∧
      is_pending_match name it = true ∧
      gl.mark_as_bought name =
        (some it.mark_as_bought, ⟨pre ++ it.mark_as_bought :: post⟩) := by
  have hpos : 0 < gl.items.countP (is_pending_match name) :=
    lt_of_lt_of_le (by norm_num) h
  have hex : ∃ x ∈ gl.items, is_pending_match name x = true := by
    simpa using List.countP_pos_iff.mp hpos
  rcases exists_first_match (is_pending_match name) gl.items hex with
    ⟨pre, it, post, heq, hpre, hit⟩
  refine ⟨pre, it, post, heq, hpre, hit, ?_⟩
  rw [GroceryList.mark_as_bought, heq, mark_first_found name it post pre hpre hit]

theorem c2_witness :
    ∃ pre it post,
      (GroceryList.mk [GroceryItem.make "milk" "dairy" 2 none 0,
        GroceryItem.make "MILK" "dairy" 3 none 1]).items = pre ++ it :: post ∧
      (∀ x ∈ pre, is_pending_match "Milk" x = false) ∧
      is_pending_match "Milk" it = true ∧
      (GroceryList.mk [GroceryItem.make "milk" "dairy" 2 none 0,
        GroceryItem.make "MILK" "dairy" 3 none 1]).mark_as_bought "Milk" =
        (some it.mark_as_bought, ⟨pre ++ it.mark_as_bought :: post⟩) :=
  c2_marks_first_of_two_pending _ "Milk" (by decide)

/-- Claim C3: when no pending item matches the name case-insensitively,
mark_as_bought returns none and the inventory is unchanged. -/
theorem c3_no_pending_match_returns_none (gl : GroceryList) (name : String)
    (h : ∀ x ∈ gl.items, is_pending_match name x = false) :
    gl.mark_as_bought name = (none, gl) := by
  rw [GroceryList.mark_as_bought, mark_first_not_found name gl.items h]

theorem c3_witness :
    (GroceryList.mk [(GroceryItem.make "milk" "dairy" 2 none 0).mark_as_bought,
      GroceryItem.make "bread" "bakery" 1 none 0]).mark_as_bought "Milk" =
      (none, GroceryList.mk [(GroceryItem.make "milk" "dairy" 2 none 0).mark_as_bought,
        GroceryItem.make "bread" "bakery" 1 none 0]) :=
  c3_no_pending_match_returns_none _ "Milk" (by decide)

/-- Claim C4: is_expiring_soon is false on an absent expiry date, and on a
present expiry date it holds exactly when the day difference to today lies
in the inclusive range from 0 to the window; in particular expiry today is
true for any nonnegative window, expiry in four days is false at window 3,
and expiry yesterday is false. -/
theorem c4_is_expiring_soon_range (it : GroceryItem) (today days : ℤ) :
    (it.expiry_date = none → it.is_expiring_soon today days = false) ∧
    (∀ e, it.expiry_date = some e →
      (it.is_expiring_soon today days = true ↔ (0 ≤ e - today ∧ e - today ≤ days))) ∧
    (it.expiry_date = some today → 0 ≤ days → it.is_expiring_soon today days = true) ∧
    (it.expiry_date = some (today + 4) → it.is_expiring_soon today 3 = false) ∧
    (it.expiry_date = some (today - 1) → it.is_expiring_soon today days = false) := by
  refine ⟨?_, ?_, ?_, ?_, ?_⟩
  · intro h; simp [GroceryItem.is_expiring_soon, h]
  · intro e he; simp [GroceryItem.is_expiring_soon, he]
  · intro he hd; simp [GroceryItem.is_expiring_soon, he]; omega
  · intro he; simp [GroceryItem.is_expiring_soon, he]
  · intro he; simp [GroceryItem.is_expiring_soon, he]

theorem c4_witness :
    (GroceryItem.make "Milk" "dairy" 2 (some 10) 0).is_expiring_soon 10 3 = true :=
  ((c4_is_expiring_soon_range (GroceryItem.make "Milk" "dairy" 2 (some 10) 0)
    10 3).2.2.1 rfl (by norm_num))

theorem run_adds_items (calls : List AddCall) :
    ∀ gl : GroceryList, (run_adds gl calls).items = gl.items ++ calls.map AddCall.item := by
  induction calls with
  | nil => intro gl; simp [run_adds]
  | cons c rest ih =>
    intro gl
    have hstep : run_adds gl (c :: rest) =
        run_adds (gl.add_item c.name c.category c.price c.expiry_date c.now) rest := rfl
    rw [hstep, ih]
    simp [GroceryList.add_item, AddCall.item]

/-- Claim C5: after any sequence of add_item calls starting from an empty
list, get_items with no filter returns exactly the constructed items in
insertion order (so its length is the number of calls), and get_items with
a boolean flag returns the subsequence whose bought state equals the flag,
in the same order. -/
theorem c5_get_items_order (calls : List AddCall) :
    (run_adds ⟨[]⟩ calls).get_items none = calls.map AddCall.item ∧
    ((run_adds ⟨[]⟩ calls).get_items none).length = calls.length ∧
    ∀ b : Bool, (run_adds ⟨[]⟩ calls).get_items (some b) =
      (calls.map AddCall.item).filter (fun it => it.is_bought == b) := by
  have h := run_adds_items calls ⟨[]⟩
  refine ⟨?_, ?_, ?_⟩
  · simp [GroceryList.get_items, h]
  · simp [GroceryList.get_items, h]
  · intro b; simp [GroceryList.get_items, h]

theorem getElem_opt_append_left {α : Type} :
    ∀ (l l2 : List α) (i : ℕ) (a : α), l[i]? = some a → (l ++ l2)[i]? = some a := by
  intro l
  induction l with
  | nil => intro l2 i a h; simp at h
  | cons x t ih =>
    intro l2 i a h
    cases i with
    | zero => simpa using h
    | succ n =>
      simp only [List.cons_append, List.getElem?_cons_succ] at h ⊢
      exact ih l2 n a h

theorem mark_first_snd_get (name : String) :
    ∀ (l : List GroceryItem) (i : ℕ),
      (mark_first name l).2[i]? = l[i]? ∨
      ∃ it, l[i]? = some it ∧ (mark_first name l).2[i]? = some it.mark_as_bought := by
  intro l
  induction l with
  | nil => intro i; left; rfl
  | cons a t ih =>
    intro i
    by_cases hpa : is_pending_match name a = true
    · cases i with
      | zero => right; exact ⟨a, by simp, by simp [mark_first, hpa]⟩
      | succ n => left; simp [mark_first, hpa]
    · cases i with
      | zero => left; simp [mark_first, hpa]
      | succ n =>
        have hm : (mark_first name (a :: t)).2[n + 1]? = (mark_first name t).2[n]? := by
          simp [mark_first, hpa]
        rcases ih n with h | ⟨it, h1, h2⟩
        · left; rw [hm, h]; simp
        · right
          refine ⟨it, ?_, ?_⟩
          · simpa using h1
          · rw [hm]; exact h2

theorem mark_first_some_mem (name : String) :
    ∀ (l : List GroceryItem) (it : GroceryItem), (mark_first name l).1 = some it →
      ∃ it0 ∈ l, it = it0.mark_as_bought := by
  intro l
  induction l with
  | nil => intro it h; simp [mark_first] at h
  | cons a t ih =>
    intro it h
    by_cases hpa : is_pending_match name a = true
    · refine ⟨a, List.mem_cons_self a t, ?_⟩
      simp [mark_first, hpa] at h
      exact h.symm
    · simp [mark_first, hpa] at h
      rcases ih it h with ⟨it0, hmem, heq⟩
      exact ⟨it0, List.mem_cons_of_mem a hmem, heq⟩

theorem step_mark_items (s : AppState) (name date_str : String) :
    (step s (Op.mark_as_bought name date_str)).grocery_list.items =
      (mark_first name s.grocery_list.items).2 := by
  rcases hmf : mark_first name s.grocery_list.items with ⟨r, l2⟩
  cases r <;> simp [step, GroceryList.mark_as_bought, hmf]

theorem step_items_get (s : AppState) (op : Op) (i : ℕ) (it : GroceryItem)
    (h : s.grocery_list.items[i]? = some it) :
    (step s op).grocery_list.items[i]? = some it ∨
    (step s op).grocery_list.items[i]? = some it.mark_as_bought := by
  cases op with
  | add_item n c p e now =>
    left
    have happ : (step s (Op.add_item n c p e now)).grocery_list.items =
        s.grocery_list.items ++ [GroceryItem.make n c p e now] := rfl
    rw [happ]
    exact getElem_opt_append_left _ _ i it h
  | get_items b => left; exact h
  | get_expiring_items a b c => left; exact h
  | mark_as_bought name date_str =>
    rw [step_mark_items]
    rcases mark_first_snd_get name s.grocery_list.items i with h1 | ⟨it2, h2, h3⟩
    · left; rw [h1]; exact h
    · right
      have heq : it2 = it := Option.some.inj (h2.symm.trans h)
      rw [heq] at h3
      exact h3

/-- Claim C6 as stated fails: add_item performs no validation, so an item
with a negative price can be added and bought, and the record_purchase it
triggers strictly decreases get_total_spent. -/
theorem c6_counterexample :
    (step (step ⟨⟨[]⟩, PurchaseHistory.empty⟩ (Op.add_item "apple" "fruit" (-1) none 0))
        (Op.mark_as_bought "apple" "d1")).purchase_history.get_total_spent <
      (step ⟨⟨[]⟩, PurchaseHistory.empty⟩
        (Op.add_item "apple" "fruit" (-1) none 0)).purchase_history.get_total_spent := by
  have h2 : (step (step ⟨⟨[]⟩, PurchaseHistory.empty⟩
      (Op.add_item "apple" "fruit" (-1) none 0))
      (Op.mark_as_bought "apple" "d1")).purchase_history.get_total_spent = 0 + (-1) := rfl
  have h1 : (step ⟨⟨[]⟩, PurchaseHistory.empty⟩
      (Op.add_item "apple" "fruit" (-1) none 0)).purchase_history.get_total_spent = 0 := rfl
  rw [h1, h2]
  norm_num

/-- Claim C6 amended: provided every item in the inventory has a
nonnegative price, no operation decreases get_total_spent, and every
operation other than a mark_as_bought interaction (the only one that
triggers record_purchase) leaves the purchase history unchanged. -/
theorem c6_amended_total_spent_monotone (s : AppState) (op : Op)
    (h : ∀ it ∈ s.grocery_list.items, 0 ≤ it.price) :
    s.purchase_history.get_total_spent ≤ (step s op).purchase_history.get_total_spent ∧
    ((∀ name date_str, op ≠ Op.mark_as_bought name date_str) →
      (step s op).purchase_history = s.purchase_history) := by
  cases op with
  | add_item n c p e now => exact ⟨le_refl _, fun _ => rfl⟩
  | get_items b => exact ⟨le_refl _, fun _ => rfl⟩
  | get_expiring_items a b c => exact ⟨le_refl _, fun _ => rfl⟩
  | mark_as_bought name date_str =>
    refine ⟨?_, fun hno => absurd rfl (hno name date_str)⟩
    rcases hmf : mark_first name s.grocery_list.items with ⟨r, l2⟩
    cases r with
    | none =>
      have hp : (step s (Op.mark_as_bought name date_str)).purchase_history =
          s.purchase_history := by
        simp [step, GroceryList.mark_as_bought, hmf]
      rw [hp]
    | some it =>
      have h1 : (mark_first name s.grocery_list.items).1 = some it := by rw [hmf]
      rcases mark_first_some_mem name s.grocery_list.items it h1 with ⟨it0, hmem, heq⟩
      have hp : 0 ≤ it.get_price := by
        rw [heq]
        simpa [GroceryItem.get_price, GroceryItem.mark_as_bought] using h it0 hmem
      have hstep : (step s (Op.mark_as_bought name date_str)).purchase_history =
          s.purchase_history.record_purchase date_str it := by
        simp [step, GroceryList.mark_as_bought, hmf]
      rw [hstep]
      simp only [PurchaseHistory.record_purchase, PurchaseHistory.get_total_spent]
      linarith

theorem c6_witness :
    (⟨⟨[GroceryItem.make "apple" "fruit" 2 none 0]⟩, PurchaseHistory.empty⟩ :
        AppState).purchase_history.get_total_spent ≤
      (step ⟨⟨[GroceryItem.make "apple" "fruit" 2 none 0]⟩, PurchaseHistory.empty⟩
        (Op.mark_as_bought "apple" "d1")).purchase_history.get_total_spent ∧
    ((∀ name date_str,
        Op.mark_as_bought "apple" "d1" ≠ Op.mark_as_bought name date_str) →
      (step ⟨⟨[GroceryItem.make "apple" "fruit" 2 none 0]⟩, PurchaseHistory.empty⟩
        (Op.mark_as_bought "apple" "d1")).purchase_history =
        (⟨⟨[GroceryItem.make "apple" "fruit" 2 none 0]⟩, PurchaseHistory.empty⟩ :
          AppState).purchase_history) :=
  c6_amended_total_spent_monotone _ (Op.mark_as_bought "apple" "d1") (by
    intro it hit
    simp only [List.mem_singleton] at hit
    subst hit
    norm_num [GroceryItem.make])

/-- Claim C7: an item that is bought stays bought after every operation:
whatever single interaction runs next, the item at the same position still
reports is_bought true. -/
theorem c7_bought_stays_bought (s : AppState) (op : Op) (i : ℕ) (it : GroceryItem)
    (h : s.grocery_list.items[i]? = some it) (hb : it.is_bought = true) :
    ∃ it2, (step s op).grocery_list.items[i]? = some it2 ∧ it2.is_bought = true := by
  rcases step_items_get s op i it h with h1 | h1
  · exact ⟨it, h1, hb⟩
  · exact ⟨it.mark_as_bought, h1, rfl⟩

theorem c7_witness :
    ∃ it2, (step ⟨⟨[(GroceryItem.make "milk" "dairy" 2 none 0).mark_as_bought]⟩,
        PurchaseHistory.empty⟩ (Op.get_items none)).grocery_list.items[0]? = some it2 ∧
      it2.is_bought = true :=
  c7_bought_stays_bought _ (Op.get_items none) 0
    ((GroceryItem.make "milk" "dairy" 2 none 0).mark_as_bought) rfl rfl

/-- Claim C8 as stated fails: mark_as_bought on an item only sets a boolean
flag, there is no recorded purchase time to overwrite, so a second call on
an already-bought item leaves the item exactly as after the first call. -/
theorem c8_counterexample :
    ((GroceryItem.make "milk" "dairy" 2 none 0).mark_as_bought).mark_as_bought =
      (GroceryItem.make "milk" "dairy" 2 none 0).mark_as_bought := rfl

/-- Claim C8 amended: GroceryItem.mark_as_bought is idempotent: a second
call via direct item access rewrites the bought flag to true and produces
no observable change. -/
theorem c8_amended_mark_idempotent (it : GroceryItem) :
    it.mark_as_bought.mark_as_bought = it.mark_as_bought := rfl

/-- Claim C9: get_expiring_items returns, in insertion order (it is a
sublist of the inventory), exactly the items flagged by is_expiring_soon,
excluding bought items when include_bought is false and keeping them when
it is true. -/
theorem c9_get_expiring_items_filter (gl : GroceryList) (today days : ℤ)
    (include_bought : Bool) :
    List.Sublist (gl.get_expiring_items today days include_bought) gl.items ∧
    ∀ it, it ∈ gl.get_expiring_items today days include_bought ↔
      (it ∈ gl.items ∧ it.is_expiring_soon today days = true ∧
        (include_bought = false → it.is_bought = false)) := by
  constructor
  · exact List.filter_sublist gl.items
  · intro it
    simp only [GroceryList.get_expiring_items, List.mem_filter, Bool.and_eq_true,
      Bool.or_eq_true, Bool.not_eq_true']
    cases include_bought <;> simp [and_assoc]

theorem c9_witness :
    GroceryItem.make "pear" "fruit" 1 (some 2) 0 ∈
      (GroceryList.mk [GroceryItem.make "pear" "fruit" 1 (some 2) 0]).get_expiring_items
        0 3 false :=
  ((c9_get_expiring_items_filter _ 0 3 false).2 _).mpr
    ⟨List.mem_singleton_self _, by decide, fun _ => rfl⟩

/-- Claim C10: no operation changes the name, category, price, added
timestamp or expiry date of an existing item: the item at each position
survives every interaction either unchanged or with only its bought flag
set, and add_item appends exactly one fresh pending item. -/
theorem c10_fields_immutable (s : AppState) (op : Op) (i : ℕ) (it : GroceryItem)
    (h : s.grocery_list.items[i]? = some it) :
    (∃ it2, (step s op).grocery_list.items[i]? = some it2 ∧
      (it2 = it ∨ it2 = it.mark_as_bought) ∧
      it2.name = it.name ∧ it2.category = it.category ∧ it2.price = it.price ∧
      it2.added_on = it.added_on ∧ it2.expiry_date = it.expiry_date) ∧
    (∀ n c p e t, op = Op.add_item n c p e t →
      (step s op).grocery_list.items =
        s.grocery_list.items ++ [GroceryItem.make n c p e t] ∧
      (GroceryItem.make n c p e t).is_bought = false) := by
  constructor
  · rcases step_items_get s op i it h with h1 | h1
    · exact ⟨it, h1, Or.inl rfl, rfl, rfl, rfl, rfl, rfl⟩
    · exact ⟨it.mark_as_bought, h1, Or.inr rfl, rfl, rfl, rfl, rfl, rfl⟩
  · rintro n c p e t rfl
    exact ⟨rfl, rfl⟩

theorem c10_witness :
    (∃ it2, (step ⟨⟨[GroceryItem.make "rice" "grain" 1 none 5]⟩, PurchaseHistory.empty⟩
        (Op.add_item "beans" "grain" 2 none 6)).grocery_list.items[0]? = some it2 ∧
      (it2 = GroceryItem.make "rice" "grain" 1 none 5 ∨
        it2 = (GroceryItem.make "rice" "grain" 1 none 5).mark_as_bought) ∧
      it2.name = (GroceryItem.make "rice" "grain" 1 none 5).name ∧
      it2.category = (GroceryItem.make "rice" "grain" 1 none 5).category ∧
      it2.price = (GroceryItem.make "rice" "grain" 1 none 5).price ∧
      it2.added_on = (GroceryItem.make "rice" "grain" 1 none 5).added_on ∧
      it2.expiry_date = (GroceryItem.make "rice" "grain" 1 none 5).expiry_date) ∧
    (∀ n c p e t, Op.add_item "beans" "grain" (2 : ℚ) none 6 = Op.add_item n c p e t →
      (step ⟨⟨[GroceryItem.make "rice" "grain" 1 none 5]⟩, PurchaseHistory.empty⟩
          (Op.add_item "beans" "grain" 2 none 6)).grocery_list.items =
        [GroceryItem.make "rice" "grain" 1 none 5] ++ [GroceryItem.make n c p e t] ∧
      (GroceryItem.make n c p e t).is_bought = false) :=
  c10_fields_immutable _ (Op.add_item "beans" "grain" 2 none 6) 0
    (GroceryItem.make "rice" "grain" 1 none 5) rfl

end GroceryApp
